import Mathlib

/-!
Verification of the isahc backend adapter (`src/isahc.rs`) of the
http-client transport abstraction.

The adapter's `send` is embedded shallowly:

* the neutral `Request` / `Response` / `Body` / `Error` model comes from
  the surrounding library (`super::{Body, Error, HttpClient, Request,
  Response}`), whose source is not part of this file set; those types are
  modelled from the spec (doc comments say so), with the two external
  accessor semantics the adapter relies on (`HeaderValues::as_str`, the
  single-string view, and `Response::insert_header`, which replaces the
  values stored under a name) modelled from the external http-types
  library the neutral model re-exports;
* the concrete engine (isahc / the http crate) is an external collaborator
  and is embedded as an explicit `Engine` record of its fallible
  validation surfaces plus its `execute` primitive, so that theorems can
  quantify over engine behaviour;
* `.unwrap()` in the source (method parsing, `builder.body(..)`,
  response-header `to_str`) is a panic, embedded as the `POr.panicked` /
  `SendOutcome.panicked` outcome, distinct from a returned `Error`;
* machine integers are `Nat`; the `len as usize` cast of the engine's
  `u64` body length is `% 2 ^ w` for a platform word size of `w` bits,
  and `sendCore` takes `w` explicitly.
-/

namespace HC

/-- Modelled from the spec: the neutral `Body` — an underlying byte
producer together with an optional known byte count (`Body::len` in the
adapter source). The eventual byte contents stand in for the stream. -/
structure Body where
  data : List Nat
  len : Option Nat
  deriving DecidableEq

/-- Modelled from the spec: the neutral method enum over standard HTTP
verbs (http-types `Method`). -/
inductive Method where
  | get
  | head
  | post
  | put
  | delete
  | connect
  | options
  | trace
  | patch
  deriving DecidableEq

/-- The verb token `req.method().to_string()` produces (the upper-case
name of the verb). -/
def Method.toStr : Method → String
  | .get => "GET"
  | .head => "HEAD"
  | .post => "POST"
  | .put => "PUT"
  | .delete => "DELETE"
  | .connect => "CONNECT"
  | .options => "OPTIONS"
  | .trace => "TRACE"
  | .patch => "PATCH"

/-- Modelled from the spec: the neutral `Request` — method, absolute URL
string, an ordered mapping from header name to one-or-more values
(case-insensitive lookup, case-preserving storage), and a `Body`. -/
structure Request where
  method : Method
  url : String
  headers : List (String × List String)
  body : Body
  deriving DecidableEq

/-- Modelled from the spec: the neutral `Response` — numeric status,
headers of the same shape as `Request` headers, and a `Body`. -/
structure Response where
  status : Nat
  headers : List (String × List String)
  body : Body
  deriving DecidableEq

/-- Case-insensitive header-name comparison (the neutral model stores
names verbatim and compares them case-insensitively): the two names
agree once each character is ASCII-lowercased. -/
def lowerEq (a b : String) : Bool :=
  a.data.map Char.toLower == b.data.map Char.toLower

/-- Modelled from the spec: `Request::header_names()` enumerates the
header names in the mapping's order. -/
def Request.header_names (req : Request) : List String :=
  req.headers.map Prod.fst

/-- Modelled from the spec: `Request::header(name)` looks the name up
case-insensitively and yields the values stored under it. -/
def Request.header (req : Request) (n : String) : Option (List String) :=
  (req.headers.find? fun p => lowerEq p.fst n).map Prod.snd

/-- The single-string view `HeaderValues::as_str` the adapter reads one
value through: the external http-types `HeaderValues` dereferences to its
first value (the values list is kept non-empty by that library). -/
def headerValuesAsStr (vs : List String) : String :=
  vs.headD ""

/-- An isahc request body: `isahc::Body::from_reader_sized` (a sized
streaming body carrying a declared byte count) or
`isahc::Body::from_reader` (an unsized, chunked streaming body). -/
inductive EngineBody where
  | sized (data : List Nat) (len : Nat)
  | unsized (data : List Nat)
  deriving DecidableEq

/-- The engine-level request the builder assembles: method token, URI
string, the appended header entries in order, and the wrapped body. -/
structure EngineRequest where
  method : String
  uri : String
  headers : List (String × String)
  body : EngineBody
  deriving DecidableEq

/-- An opaque engine-level failure of the async exchange
(`isahc::Error`). -/
structure EngineError where
  code : Nat
  deriving DecidableEq

/-- The engine's response: numeric status (`parts.status.as_u16()`),
header entries in enumeration order with raw byte values, and the
response body's bytes and optional reported length
(`isahc::Body::len`, a `u64`). -/
structure EngineResponse where
  status : Nat
  headers : List (String × List Nat)
  bodyData : List Nat
  bodyLen : Option Nat
  deriving DecidableEq

/-- The external engine, as the adapter sees it: which method tokens,
URIs and header pairs its request types accept, and the async `execute`
primitive (`send_async`). -/
structure Engine where
  methodOk : String → Bool
  uriOk : String → Bool
  headerOk : String → String → Bool
  execute : EngineRequest → Except EngineError EngineResponse

/-- Outcome of a fallible translation step in the adapter: the value, or
a panic (the source's `.unwrap()` on a failed step). -/
inductive POr (α : Type) where
  | panicked
  | ok (a : α)
  deriving DecidableEq

/-- Modelled from the spec: the normalized error taxonomy (§7) of the
neutral `Error` the adapter returns. The adapter source constructs only
`fromEngine` (`Error::from` on the engine failure); the other two kinds
exist so the spec's claims about them can be stated. -/
inductive Error where
  | fromEngine (e : EngineError)
  | protocolError
  | responseMalformed
  deriving DecidableEq

/-- What one `send` call can come to: a translated `Response`, a
normalized `Error`, or a panic from an unwrapped translation step. -/
inductive SendOutcome where
  | ok (r : Response)
  | err (e : Error)
  | panicked
  deriving DecidableEq

/-- Whether the outcome is a `Response`. -/
def SendOutcome.isOk : SendOutcome → Bool
  | .ok _ => true
  | _ => false

/-- Whether the outcome is a normalized `Error`. -/
def SendOutcome.isErr : SendOutcome → Bool
  | .err _ => true
  | _ => false

/-- The header loop of `send`: for each enumerated name, if the lookup
yields values, one engine entry `(name, value.as_str())` is appended. -/
def requestHeaderPairs (req : Request) : List (String × String) :=
  req.header_names.filterMap fun n =>
    (req.header n).map fun vs => (n, headerValuesAsStr vs)

/-- The outgoing body wrap of `send`: a known length makes
`from_reader_sized(body, len as u64)` (the `usize` to `u64` cast is
lossless), no known length makes `from_reader(body)`. -/
def Body.wrap (b : Body) : EngineBody :=
  match b.len with
  | some n => .sized b.data n
  | none => .unsized b.data

/-- The request-translation half of `send`: `Method::from_bytes(..)
.unwrap()` panics when the engine rejects the verb token, and
`builder.body(body).unwrap()` panics when the builder recorded a URI or
header-entry rejection; otherwise the assembled engine request. -/
def translateRequest (E : Engine) (req : Request) : POr EngineRequest :=
  if E.methodOk req.method.toStr then
    if E.uriOk req.url &&
        (requestHeaderPairs req).all (fun p => E.headerOk p.fst p.snd) then
      .ok ⟨req.method.toStr, req.url, requestHeaderPairs req, req.body.wrap⟩
    else .panicked
  else .panicked

/-- The engine's `HeaderValue::to_str`: the value decodes to text only
when every byte is visible ASCII; otherwise the decode fails (and the
adapter unwraps the failure). -/
def headerValueToStr (bs : List Nat) : Option String :=
  if bs.all (fun b => 32 ≤ b && b ≤ 126) then
    some (String.mk (bs.map Char.ofNat))
  else none

/-- The external http-types `insert_header` the adapter calls on the
neutral `Response`: it replaces every value stored under the name with
the one given value. -/
def insert_header (hs : List (String × List String)) (n v : String) :
    List (String × List String) :=
  (hs.filter fun p => !lowerEq p.fst n) ++ [(n, [v])]

/-- The response-header loop of `send`: each engine entry is decoded with
`to_str().unwrap()` (panicking at the first undecodable value) and
inserted into the neutral response's headers. -/
def insertAll (acc : List (String × List String)) :
    List (String × List Nat) → POr (List (String × List String))
  | [] => .ok acc
  | (n, v) :: rest =>
    match headerValueToStr v with
    | some s => insertAll (insert_header acc n s) rest
    | none => .panicked

/-- Modelled from the spec: `Body::from_reader(reader, len)` builds a
neutral `Body` over the engine's response stream with the given optional
known length. -/
def Body.from_reader (data : List Nat) (len : Option Nat) : Body :=
  ⟨data, len⟩

/-- The response-translation half of `send` for a platform word size of
`w` bits: status is the engine's numeric code, headers are inserted one
engine entry at a time, and the body carries the engine's reported
length cast with `len as usize` (`% 2 ^ w`). -/
def translateResponse (w : Nat) (eres : EngineResponse) : POr Response :=
  match insertAll [] eres.headers with
  | .ok hs =>
    .ok ⟨eres.status, hs,
      Body.from_reader eres.bodyData (eres.bodyLen.map (· % 2 ^ w))⟩
  | .panicked => .panicked

/-- The body of `send` on a `w`-bit platform: translate the request
(panicking on an unwrapped translation failure), run the engine's
`send_async`, normalize an engine failure with `Error::from` behind `?`,
and translate the engine's response (again panicking on an unwrapped
decode failure). -/
def sendCore (w : Nat) (E : Engine) (req : Request) : SendOutcome :=
  match translateRequest E req with
  | .panicked => .panicked
  | .ok ereq =>
    match E.execute ereq with
    | .error ee => .err (.fromEngine ee)
    | .ok eres =>
      match translateResponse w eres with
      | .panicked => .panicked
      | .ok resp => .ok resp

/-- The adapter: it holds one shared engine handle (`Arc<isahc::HttpClient>`). -/
structure IsahcClient where
  client : Engine

/-- `IsahcClient::from_client`: wrap a caller-supplied engine handle as-is. -/
def IsahcClient.from_client (h : Engine) : IsahcClient :=
  ⟨h⟩

/-- `Clone for IsahcClient`: duplicate the shared handle reference only. -/
def IsahcClient.clone (c : IsahcClient) : IsahcClient :=
  ⟨c.client⟩

/-- `HttpClient::send` on the adapter: read the shared handle and run the
exchange through it. -/
def IsahcClient.send (c : IsahcClient) (w : Nat) (req : Request) : SendOutcome :=
  sendCore w c.client req

/-! Concrete inputs used to evaluate the embedding. -/

/-- An engine that accepts every method token, URI and header entry, with
the given `execute` behaviour. -/
def acceptAllEngine (ex : EngineRequest → Except EngineError EngineResponse) : Engine :=
  ⟨fun _ => true, fun _ => true, fun _ _ => true, ex⟩

/-- An empty body with no known length. -/
def emptyBody : Body :=
  ⟨[], none⟩

/-- A plain GET request with no headers. -/
def baseReq : Request :=
  ⟨.get, "http://localhost/", [], emptyBody⟩

/-- A request carrying one header name with two values. -/
def reqOne : Request :=
  ⟨.get, "http://localhost/", [("x", ["a", "b"])], emptyBody⟩

/-- An accept-everything engine whose exchange fails. -/
def engOne : Engine :=
  acceptAllEngine fun _ => .error ⟨0⟩

/-- The header entries of a translated engine request (empty on a panic). -/
def engineHeadersOf : POr EngineRequest → List (String × String)
  | .panicked => []
  | .ok e => e.headers

/-- An engine response carrying two entries under the one name `x`, with
values `a` and `b`. -/
def eresDup : EngineResponse :=
  ⟨200, [("x", [97]), ("x", [98])], [], none⟩

/-- An engine that rejects every method token. -/
def rejectMethodEngine : Engine :=
  ⟨fun _ => false, fun _ => true, fun _ _ => true, fun _ => .error ⟨0⟩⟩

/-- An engine whose response carries a header value that is not valid
text (the byte 0). -/
def badValueEngine : Engine :=
  acceptAllEngine fun _ => .ok ⟨200, [("x", [0])], [], none⟩

/-- An engine that rejects every URI, so the builder records an error and
`builder.body(body).unwrap()` panics. -/
def rejectUriEngine : Engine :=
  ⟨fun _ => true, fun _ => false, fun _ _ => true, fun _ => .error ⟨0⟩⟩

/-- An engine that rejects both the method token and the URI. -/
def rejectBothEngine : Engine :=
  ⟨fun _ => false, fun _ => false, fun _ _ => true, fun _ => .error ⟨9⟩⟩

/-- A PUT request to a remote URL. -/
def putReq : Request :=
  ⟨.put, "http://remote/", [], emptyBody⟩

/-- A POST request whose body has two bytes and a known length of 2. -/
def sizedReq : Request :=
  ⟨.post, "http://localhost/", [], ⟨[104, 105], some 2⟩⟩

/-- The engine request `sizedReq` translates to. -/
def sizedEreq : EngineRequest :=
  ⟨"POST", "http://localhost/", [], EngineBody.sized [104, 105] 2⟩

/-- An engine whose exchange succeeds with status 201, no headers, a
two-byte response body and a reported length of 7. -/
def okEngine : Engine :=
  acceptAllEngine fun _ => .ok ⟨201, [], [104, 105], some 7⟩

/-- The neutral response `okEngine`'s exchange translates to. -/
def respOk : Response :=
  ⟨201, [], ⟨[104, 105], some 7⟩⟩

/-- An engine response whose reported body length exceeds the 32-bit
word-size maximum. -/
def eresBig : EngineResponse :=
  ⟨200, [], [], some (2 ^ 32 + 5)⟩

/-- The neutral response `eresBig` translates to on a 32-bit platform:
the reported length is reduced to 5. -/
def respSmall : Response :=
  ⟨200, [], ⟨[], some 5⟩⟩

/-! Theorems. -/

/-- Helper: the response-header loop panics whenever some entry's value
does not decode to text, whatever headers were accumulated so far. -/
theorem insertAll_panicked :
    ∀ (entries : List (String × List Nat)) (acc : List (String × List String)),
      (∃ p ∈ entries, headerValueToStr p.2 = none) →
      insertAll acc entries = POr.panicked
  | [], _, h => by simp at h
  | (n, v) :: tl, acc, h => by
    rcases h with ⟨p, hp, hv⟩
    rcases List.mem_cons.mp hp with h1 | h1
    · subst h1
      simp only [insertAll]
      rw [show headerValueToStr v = none from hv]
    · simp only [insertAll]
      cases hd : headerValueToStr v with
      | none => rfl
      | some s => exact insertAll_panicked tl (insert_header acc n s) ⟨p, h1, hv⟩

/-- Claim C1: the claim says every (name, value) pair of the Request
produces one engine header entry. The code's loop appends exactly one
entry per header *name* — carrying the single value `header(name)
.as_str()` yields (the first value) — so a Request holding the two
values `a`, `b` under the name `x` produces the single engine entry
`(x, a)`: the pair `(x, b)` never reaches the engine request. -/
theorem claim_C1 :
    reqOne.header "x" = some ["a", "b"] ∧
    engineHeadersOf (translateRequest engOne reqOne) = [("x", "a")] ∧
    (engineHeadersOf (translateRequest engOne reqOne)).length = 1 := by
  decide

/-- Claim C2: whenever `send` assembles an engine request, a body with a
known length is wrapped as a sized streaming body carrying exactly that
byte count, and a body with no known length is wrapped as an unsized
(chunked) streaming body. -/
theorem claim_C2 (E : Engine) (req : Request) (ereq : EngineRequest)
    (h : translateRequest E req = POr.ok ereq) :
    (∀ n, req.body.len = some n → ereq.body = EngineBody.sized req.body.data n) ∧
    (req.body.len = none → ereq.body = EngineBody.unsized req.body.data) := by
  unfold translateRequest at h
  split at h
  · split at h
    · injection h with h
      subst h
      refine ⟨fun n hn => ?_, fun hn => ?_⟩ <;> simp [Body.wrap, hn]
    · simp at h
  · simp at h

/-- Claim C2 witness: a two-byte body of known length 2 is wrapped sized
with count 2. -/
theorem claim_C2_witness :
    translateRequest engOne sizedReq = POr.ok sizedEreq ∧
    sizedEreq.body = EngineBody.sized [104, 105] 2 :=
  ⟨by decide, (claim_C2 engOne sizedReq sizedEreq (by decide)).1 2 rfl⟩

/-- Claim C3: the claim says every engine response header entry becomes
one append on the neutral Response, so several entries under one name
all survive. The code calls `insert_header`, which replaces the values
stored under the name: of the two engine entries `(x, a)`, `(x, b)` —
both of which decode to text — only the last value `b` is present in the
translated Response. -/
theorem claim_C3 :
    translateResponse 64 eresDup = POr.ok ⟨200, [("x", ["b"])], ⟨[], none⟩⟩ ∧
    headerValueToStr [97] = some "a" ∧
    headerValueToStr [98] = some "b" ∧
    eresDup.headers.length = 2 := by
  decide

/-- Claim C4 counterexample: against an engine that rejects the method
token, `send` does not yield an `Error` of kind `ProtocolError` — the
unwrapped rejection panics. -/
theorem claim_C4_cex :
    rejectMethodEngine.methodOk baseReq.method.toStr = false ∧
    sendCore 64 rejectMethodEngine baseReq = SendOutcome.panicked ∧
    sendCore 64 rejectMethodEngine baseReq ≠ SendOutcome.err Error.protocolError := by
  decide

/-- Claim C4 (amended): for every Request whose method token the engine
rejects, `send` panics (the rejection is unwrapped) before any engine
execution is attempted — the outcome is a panic whatever the engine's
`execute` would do, and no normalized `Error` is returned. -/
theorem claim_C4 (w : Nat) (E : Engine) (req : Request)
    (h : E.methodOk req.method.toStr = false) :
    ∀ ex, sendCore w ⟨E.methodOk, E.uriOk, E.headerOk, ex⟩ req = SendOutcome.panicked := by
  intro ex
  unfold sendCore translateRequest
  simp [h]

/-- Claim C4 witness: the method-rejecting engine panics `send` even
when its `execute` would succeed. -/
theorem claim_C4_witness :
    sendCore 64
      ⟨rejectMethodEngine.methodOk, rejectMethodEngine.uriOk, rejectMethodEngine.headerOk,
        fun _ => Except.ok ⟨200, [], [], none⟩⟩ baseReq = SendOutcome.panicked :=
  claim_C4 64 rejectMethodEngine baseReq rfl (fun _ => Except.ok ⟨200, [], [], none⟩)

/-- Claim C5 counterexample: when the engine's response carries a header
value that is not valid text, `send` does not yield an `Error` of kind
`ResponseMalformed` — the unwrapped decode failure panics. -/
theorem claim_C5_cex :
    headerValueToStr [0] = none ∧
    sendCore 64 badValueEngine baseReq = SendOutcome.panicked ∧
    sendCore 64 badValueEngine baseReq ≠ SendOutcome.err Error.responseMalformed := by
  decide

/-- Claim C5 (amended): for every engine response containing a header
value that is not validly encoded text, `send` panics (the decode
failure is unwrapped) rather than returning a Response — and no
normalized `Error` is returned either. -/
theorem claim_C5 (w : Nat) (E : Engine) (req : Request) (ereq : EngineRequest)
    (eres : EngineResponse) (h1 : translateRequest E req = POr.ok ereq)
    (h2 : E.execute ereq = Except.ok eres) (p : String × List Nat)
    (hp : p ∈ eres.headers) (hv : headerValueToStr p.2 = none) :
    sendCore w E req = SendOutcome.panicked := by
  unfold sendCore
  simp only [h1, h2]
  unfold translateResponse
  simp only [insertAll_panicked eres.headers [] ⟨p, hp, hv⟩]

/-- Claim C5 witness: an exchange whose response holds the undecodable
header value byte 0 panics `send`. -/
theorem claim_C5_witness :
    sendCore 64 badValueEngine baseReq = SendOutcome.panicked :=
  claim_C5 64 badValueEngine baseReq ⟨"GET", "http://localhost/", [], EngineBody.unsized []⟩
    ⟨200, [("x", [0])], [], none⟩ rfl rfl ("x", [0]) (by decide) rfl

/-- Claim C6 counterexample: against an engine that rejects the URI, the
builder failure is unwrapped, so the call's outcome is neither a
Response nor a normalized `Error` — it is a panic. -/
theorem claim_C6_cex :
    (sendCore 64 rejectUriEngine baseReq).isOk = false ∧
    (sendCore 64 rejectUriEngine baseReq).isErr = false ∧
    sendCore 64 rejectUriEngine baseReq = SendOutcome.panicked := by
  decide

/-- Claim C6 (amended): `send` never produces both a Response and an
`Error`; a failure of the engine-execution step short-circuits with a
normalized `Error` and no Response; but a failure of the translation
steps short-circuits with a panic, not a returned `Error`. -/
theorem claim_C6 (w : Nat) (E : Engine) (req : Request) :
    (∀ ereq ee, translateRequest E req = POr.ok ereq → E.execute ereq = Except.error ee →
      sendCore w E req = SendOutcome.err (Error.fromEngine ee) ∧
        ∀ r, sendCore w E req ≠ SendOutcome.ok r) ∧
    (translateRequest E req = POr.panicked → sendCore w E req = SendOutcome.panicked) ∧
    (∀ r e, sendCore w E req = SendOutcome.ok r → sendCore w E req ≠ SendOutcome.err e) := by
  refine ⟨fun ereq ee h1 h2 => ?_, fun h1 => ?_, fun r e h1 h2 => ?_⟩
  · have hs : sendCore w E req = SendOutcome.err (Error.fromEngine ee) := by
      unfold sendCore
      simp only [h1, h2]
    exact ⟨hs, fun r hr => by rw [hs] at hr; exact SendOutcome.noConfusion hr⟩
  · unfold sendCore
    simp only [h1]
  · rw [h1] at h2
    exact SendOutcome.noConfusion h2

/-- Claim C6 witness: a failing exchange through an accept-everything
engine yields exactly the normalized engine error. -/
theorem claim_C6_witness :
    sendCore 64 engOne baseReq = SendOutcome.err (Error.fromEngine ⟨0⟩) :=
  ((claim_C6 64 engOne baseReq).1 ⟨"GET", "http://localhost/", [], EngineBody.unsized []⟩
    ⟨0⟩ rfl rfl).1

/-- Claim C7: every successful `send` (64-bit platform) returns a
Response whose status is the engine response's numeric code and whose
body carries the engine's reported length when one is reported (any
reported `u64` count is below `2 ^ 64`) and no known length when none
is. -/
theorem claim_C7 (E : Engine) (req : Request) (resp : Response)
    (h : sendCore 64 E req = SendOutcome.ok resp) :
    ∃ ereq eres, translateRequest E req = POr.ok ereq ∧ E.execute ereq = Except.ok eres ∧
      resp.status = eres.status ∧
      (∀ n, eres.bodyLen = some n → n < 2 ^ 64 → resp.body.len = some n) ∧
      (eres.bodyLen = none → resp.body.len = none) := by
  unfold sendCore at h
  cases htr : translateRequest E req with
  | panicked =>
    simp only [htr] at h
    exact SendOutcome.noConfusion h
  | ok ereq =>
    simp only [htr] at h
    cases hex : E.execute ereq with
    | error ee =>
      simp only [hex] at h
      exact SendOutcome.noConfusion h
    | ok eres =>
      simp only [hex] at h
      refine ⟨ereq, eres, rfl, hex, ?_⟩
      unfold translateResponse at h
      cases hins : insertAll [] eres.headers with
      | panicked =>
        simp only [hins] at h
        exact SendOutcome.noConfusion h
      | ok hs =>
        simp only [hins] at h
        injection h with h
        subst h
        refine ⟨rfl, fun n hn hlt => ?_, fun hn => ?_⟩
        · simp only [Body.from_reader, hn, Option.map_some']
          rw [Nat.mod_eq_of_lt hlt]
        · simp [Body.from_reader, hn]

/-- Claim C7 witness: a successful exchange reporting length 7 and
status 201 yields a Response with status 201 and known length 7. -/
theorem claim_C7_witness :
    sendCore 64 okEngine baseReq = SendOutcome.ok respOk ∧ respOk.body.len = some 7 := by
  refine ⟨by decide, ?_⟩
  obtain ⟨ereq, eres, h1, h2, h3, h4, h5⟩ := claim_C7 okEngine baseReq respOk (by decide)
  have h2a : (Except.ok (⟨201, [], [104, 105], some 7⟩ : EngineResponse) :
      Except EngineError EngineResponse) = Except.ok eres := h2
  injection h2a with h2b
  subst h2b
  exact h4 7 rfl (by decide)

/-- Claim C8: `clone` duplicates only the shared engine-handle
reference, so every clone transports through the one underlying handle,
`from_client` stores the supplied handle as-is, and the behaviour of
`send` depends on nothing but the shared handle — any two adapters over
the same handle behave identically, and no operation changes the
handle. -/
theorem claim_C8 (c : IsahcClient) :
    c.clone.client = c.client ∧
    (∀ h : Engine, (IsahcClient.from_client h).client = h) ∧
    (∀ w req, c.clone.send w req = c.send w req) ∧
    (∀ c' : IsahcClient, c'.client = c.client → ∀ w req, c'.send w req = c.send w req) :=
  ⟨rfl, fun _ => rfl, fun _ _ => rfl,
    fun c' hc w req => by rw [IsahcClient.send, IsahcClient.send, hc]⟩

/-- Claim C8 witness: a clone of an adapter built from the failing
engine sends exactly as the original does. -/
theorem claim_C8_witness :
    (IsahcClient.from_client engOne).clone.send 64 baseReq =
      (IsahcClient.from_client engOne).send 64 baseReq :=
  (claim_C8 (IsahcClient.from_client engOne)).2.2.2
    (IsahcClient.from_client engOne).clone rfl 64 baseReq

/-- Claim C9: the only fallible step whose failure becomes the returned
`Error` is the engine's execute call — every returned `Error` is the
normalized engine-execution failure; a rejected method token, a builder
rejection of URI or header entry, and an undecodable response header
value each panic the call instead of returning an `Error`. -/
theorem claim_C9 (w : Nat) (E : Engine) (req : Request) :
    (∀ e, sendCore w E req = SendOutcome.err e →
      ∃ ereq ee, translateRequest E req = POr.ok ereq ∧
        E.execute ereq = Except.error ee ∧ e = Error.fromEngine ee) ∧
    (E.methodOk req.method.toStr = false → sendCore w E req = SendOutcome.panicked) ∧
    (E.methodOk req.method.toStr = true →
      (E.uriOk req.url &&
        (requestHeaderPairs req).all fun p => E.headerOk p.fst p.snd) = false →
      sendCore w E req = SendOutcome.panicked) ∧
    (∀ ereq eres, translateRequest E req = POr.ok ereq → E.execute ereq = Except.ok eres →
      (∃ p ∈ eres.headers, headerValueToStr p.2 = none) →
      sendCore w E req = SendOutcome.panicked) := by
  refine ⟨fun e he => ?_, fun h1 => ?_, fun h1 h2 => ?_, fun ereq eres h1 h2 h3 => ?_⟩
  · unfold sendCore at he
    cases htr : translateRequest E req with
    | panicked =>
      simp only [htr] at he
      exact SendOutcome.noConfusion he
    | ok ereq =>
      simp only [htr] at he
      cases hex : E.execute ereq with
      | error ee =>
        simp only [hex] at he
        exact ⟨ereq, ee, rfl, hex, by injection he with he; exact he.symm⟩
      | ok eres =>
        simp only [hex] at he
        cases hres : translateResponse w eres with
        | panicked =>
          simp only [hres] at he
          exact SendOutcome.noConfusion he
        | ok resp =>
          simp only [hres] at he
          exact SendOutcome.noConfusion he
  · unfold sendCore translateRequest
    simp [h1]
  · unfold sendCore translateRequest
    simp [h1, h2]
  · unfold sendCore
    simp only [h1, h2]
    unfold translateResponse
    simp only [insertAll_panicked eres.headers [] h3]

/-- Claim C9 witness: rejecting the method token panics the call. -/
theorem claim_C9_witness :
    sendCore 64 rejectBothEngine putReq = SendOutcome.panicked :=
  (claim_C9 64 rejectBothEngine putReq).2.1 rfl

/-- Claim C10: the engine's reported response body length is attached to
the neutral Body through a plain `as usize` cast, so on a `w`-bit
platform the stored length is the report reduced modulo `2 ^ w` — an
oversized report is wrapped, not rejected. -/
theorem claim_C10 (w : Nat) (eres : EngineResponse) (resp : Response)
    (h : translateResponse w eres = POr.ok resp) (n : Nat)
    (hn : eres.bodyLen = some n) :
    resp.body.len = some (n % 2 ^ w) := by
  unfold translateResponse at h
  cases hins : insertAll [] eres.headers with
  | panicked =>
    simp only [hins] at h
    exact POr.noConfusion h
  | ok hs =>
    simp only [hins] at h
    injection h with h
    subst h
    simp [Body.from_reader, hn]

/-- Claim C10 witness: on a 32-bit platform a reported length of
`2 ^ 32 + 5` is stored as its remainder modulo `2 ^ 32`, i.e. 5, and the
translation still succeeds. -/
theorem claim_C10_witness :
    respSmall.body.len = some ((2 ^ 32 + 5) % 2 ^ 32) ∧ respSmall.body.len = some 5 :=
  ⟨claim_C10 32 eresBig respSmall (by decide) (2 ^ 32 + 5) rfl, by decide⟩

end HC
